import Mathlib

/-! Verification of the ettllama server (`src/ettllama-server/src/main.rs`)
against its natural-language specification.

The server accepts TLS connections, upgrades them to WebSocket, and for each
connection runs `handler`: it starts one engine inference session, then loops
reading text prompts; each prompt is template-rendered, split on whitespace and
fed word-by-word into the engine (`feed_prompt`), after which tokens are drawn
in a loop (`infer_next_token`) and forwarded to the client, terminated by one
empty sentinel message.

The embedding below models the handler and the accept loop as pure functions
over an engine oracle, producing an event trace (engine calls, sends, flushes,
cooperative yields) and an outcome.  The `llm` crate's session is external to
the repository; it is modelled as an abstract oracle `Engine` whose interface
mirrors the calls the server makes (`feed_prompt` with a feedback callback,
`infer_next_token` returning token bytes or an error).  Wire messages are
modelled as their UTF-8 byte sequences (`List Nat`), so Rust's
`String::from_utf8` becomes a UTF-8 validity check and the end-of-turn
sentinel (the empty string) is the empty byte list.
-/

namespace Ettllama

/-- Feedback returned by the prompt-feeding callback to the engine
(`llm::InferenceFeedback`). -/
inductive InferenceFeedback
| Continue
| Halt
deriving DecidableEq, Repr

/-- The closure the handler passes to `feed_prompt` (main.rs lines 143-145):
it ignores the inference response and always returns `Continue`.  The `Bool`
argument abstracts the engine's response payload: `true` means the response
signals a stop-worthy condition, which a stop-aware callback would answer
with `Halt`. -/
def handlerCallback : Bool → InferenceFeedback := fun _ => .Continue

/-- Oracle for the external engine session (the `llm` crate's
`InferenceSession` plus model, threaded through a state of type `σ`).
`feedErr s w` says whether `feed_prompt` on word `w` in state `s` returns
`Err`; on success the state becomes `feedNext s w`, and `feedStop s w` says
whether the engine hands the feedback callback a stop-worthy response during
that call.  `inferErr s` says whether `infer_next_token` returns `Err` in
state `s`; on success it returns the token bytes `inferTok s` and the state
becomes `inferNext s`. -/
structure Engine (σ : Type) where
  feedErr : σ → String → Bool
  feedStop : σ → String → Bool
  feedNext : σ → String → σ
  inferErr : σ → Bool
  inferTok : σ → List Nat
  inferNext : σ → σ

/-- Result of one `feed_prompt` call as observed by the caller: the Rust
function returns `Result<(), InferenceError>`, so success carries only the
updated session state (an early feedback halt inside the call is not
distinguishable from completion by the return value). -/
inductive FeedResult (σ : Type)
| err
| ok (s : σ)
deriving DecidableEq, Repr

/-- Model of the `llm` crate's `feed_prompt` contract as used by the server:
it fails when the engine reports an error; otherwise it succeeds.  Whether
the feed was cut short by the callback answering `Halt` to a stop-worthy
response does not change the returned value. -/
def feed_prompt {σ : Type} (E : Engine σ) (cb : Bool → InferenceFeedback)
    (s : σ) (w : String) : FeedResult σ :=
  if E.feedErr s w then .err
  else
    -- the callback's answer is consumed by the engine internally; the
    -- caller observes only success
    match cb (E.feedStop s w) with
    | .Continue => .ok (E.feedNext s w)
    | .Halt => .ok (E.feedNext s w)

/-- Events observable in a connection handler's execution trace. -/
inductive Ev
| startSession
| feedCall (w : String)
| inferCall
| send (m : List Nat)
| flush
| yieldEv
deriving DecidableEq, Repr

/-- Accumulator pass over the characters of the prompt: maximal runs of
non-whitespace characters become words, whitespace runs are skipped. -/
def splitWsAux : List Char → List Char → List String
| [], acc => if acc = [] then [] else [String.mk acc.reverse]
| c :: cs, acc =>
  if c.isWhitespace then
    if acc = [] then splitWsAux cs []
    else String.mk acc.reverse :: splitWsAux cs []
  else splitWsAux cs (c :: acc)

/-- Whitespace splitting of the rendered prompt (Rust's
`str::split_whitespace`): split on whitespace characters and drop empty
spans. -/
def splitWhitespace (s : String) : List String := splitWsAux s.data []

/-- Whether a byte is a UTF-8 continuation byte (`0x80..=0xBF`). -/
def utf8Cont (b : Nat) : Bool := 0x80 ≤ b && b ≤ 0xBF

/-- Validity of a byte sequence as UTF-8, as checked by Rust's
`String::from_utf8`: ASCII, two-byte leaders `C2..DF`, three-byte leaders
`E0..EF` (with the overlong restriction on `E0` and the surrogate
restriction on `ED`), and four-byte leaders `F0..F4` (with the overlong
restriction on `F0` and the range restriction on `F4`). -/
def utf8Valid : List Nat → Bool
| [] => true
| b :: rest =>
  if b ≤ 0x7F then utf8Valid rest
  else if 0xC2 ≤ b && b ≤ 0xDF then
    match rest with
    | c1 :: r => utf8Cont c1 && utf8Valid r
    | [] => false
  else if b = 0xE0 then
    match rest with
    | c1 :: c2 :: r => (0xA0 ≤ c1 && c1 ≤ 0xBF) && utf8Cont c2 && utf8Valid r
    | _ => false
  else if b = 0xED then
    match rest with
    | c1 :: c2 :: r => (0x80 ≤ c1 && c1 ≤ 0x9F) && utf8Cont c2 && utf8Valid r
    | _ => false
  else if 0xE1 ≤ b && b ≤ 0xEF then
    match rest with
    | c1 :: c2 :: r => utf8Cont c1 && utf8Cont c2 && utf8Valid r
    | _ => false
  else if b = 0xF0 then
    match rest with
    | c1 :: c2 :: c3 :: r =>
        (0x90 ≤ c1 && c1 ≤ 0xBF) && utf8Cont c2 && utf8Cont c3 && utf8Valid r
    | _ => false
  else if 0xF1 ≤ b && b ≤ 0xF3 then
    match rest with
    | c1 :: c2 :: c3 :: r =>
        utf8Cont c1 && utf8Cont c2 && utf8Cont c3 && utf8Valid r
    | _ => false
  else if b = 0xF4 then
    match rest with
    | c1 :: c2 :: c3 :: r =>
        (0x80 ≤ c1 && c1 ≤ 0x8F) && utf8Cont c2 && utf8Cont c3 && utf8Valid r
    | _ => false
  else false

/-- The feeding phase (main.rs lines 142-147): for each whitespace word,
call `feed_prompt` with the constant-`Continue` callback and then
`yield_now`.  The `?` on `feed_prompt` means an engine error propagates out
of the handler at once: the result is `none` and no further word is fed. -/
def feedPhase {σ : Type} (E : Engine σ) :
    σ → List String → Option σ × List Ev
| s, [] => (some s, [])
| s, w :: ws =>
  match feed_prompt E handlerCallback s w with
  | .err => (none, [.feedCall w])
  | .ok s' =>
    let r := feedPhase E s' ws
    (r.1, .feedCall w :: .yieldEv :: r.2)

/-- Outcome of the generation loop (main.rs lines 149-163). -/
inductive GenResult (σ : Type)
| broke (s : σ)   -- `infer_next_token` returned `Err`; the loop `break`s
| panicked        -- the `assert!(!tok.is_empty())` failed
| errored         -- `String::from_utf8(tok)?` failed; the handler returns `Err`
| fuelOut (s : σ) -- the loop did not terminate within the given fuel
deriving DecidableEq, Repr

/-- The generation loop (main.rs lines 149-163): call `infer_next_token`;
on error `break`; otherwise assert the token is non-empty, convert it from
UTF-8 (`?` on failure), send it, flush, `yield_now`, and repeat.  The Rust
loop runs until one of these exits; `fuel` bounds the number of iterations
modelled. -/
def genPhase {σ : Type} (E : Engine σ) :
    Nat → σ → List Ev × GenResult σ
| 0, s => ([], .fuelOut s)
| fuel + 1, s =>
  if E.inferErr s then ([.inferCall], .broke s)
  else
    let tok := E.inferTok s
    if tok = [] then ([.inferCall], .panicked)
    else if utf8Valid tok then
      let r := genPhase E fuel (E.inferNext s)
      (.inferCall :: .send tok :: .flush :: .yieldEv :: r.1, r.2)
    else ([.inferCall], .errored)

/-- Outcome of one prompt-response turn in the handler's `while let` body. -/
inductive TurnResult (σ : Type)
| completed (s : σ) -- sentinel sent; session back to awaiting the next prompt
| errored           -- handler returned `Err`: connection torn down
| panicked          -- assertion failure aborted the task
| fuelOut (s : σ)
deriving DecidableEq, Repr

/-- One turn (main.rs lines 132-167 body): feed every whitespace word of the
rendered prompt, then run the generation loop; when the loop `break`s (engine
inference error), send the empty sentinel message, flush and `yield_now`. -/
def turn {σ : Type} (E : Engine σ) (fuel : Nat) (s : σ) (words : List String) :
    List Ev × TurnResult σ :=
  match feedPhase E s words with
  | (none, tr) => (tr, .errored)
  | (some s₁, tr) =>
    match genPhase E fuel s₁ with
    | (tr₂, .broke s₂) =>
        (tr ++ tr₂ ++ [.send [], .flush, .yieldEv], .completed s₂)
    | (tr₂, .panicked) => (tr ++ tr₂, .panicked)
    | (tr₂, .errored) => (tr ++ tr₂, .errored)
    | (tr₂, .fuelOut s₂) => (tr ++ tr₂, .fuelOut s₂)

/-- An incoming WebSocket read as matched by the handler's
`while let Some(Ok(Message::Text(prompt)))`: a text message continues the
loop; anything else (non-text frame, read error, stream end) exits it. -/
inductive InMsg
| text (s : String)
| other
deriving DecidableEq, Repr

/-- Outcome of the whole connection handler. -/
inductive ConnResult
| clean   -- the read loop ended; handler logs disconnect and returns `Ok`
| err     -- handler returned `Err`: connection torn down
| panic   -- assertion failure
| fuelOut
deriving DecidableEq, Repr

/-- The handler's prompt loop (main.rs lines 132-168): while the next
incoming frame is a text prompt, render it through the template, split on
whitespace, and run one `turn`, threading the single engine session state
from each completed turn into the next. -/
def connLoop {σ : Type} (E : Engine σ) (render : String → String) (fuel : Nat) :
    σ → List InMsg → List Ev × ConnResult
| _, [] => ([], .clean)
| _, .other :: _ => ([], .clean)
| s, .text p :: rest =>
  match turn E fuel s (splitWhitespace (render p)) with
  | (tr, .completed s') =>
    let r := connLoop E render fuel s' rest
    (tr ++ r.1, r.2)
  | (tr, .errored) => (tr, .err)
  | (tr, .panicked) => (tr, .panic)
  | (tr, .fuelOut _) => (tr, .fuelOut)

/-- Configuration items the server reads from the environment.  `tlsCert`,
`tlsKey`, `modelArch`, `modelPath` and `addr` are read in `main` (lines
40-92); `batchSize`, `threads` and `templateFile` are read inside `handler`
(lines 124-130). -/
inductive CfgItem
| tlsCert
| tlsKey
| modelArch
| modelPath
| addr
| batchSize
| threads
| templateFile
deriving DecidableEq, Repr

/-- Configuration items acquired and validated in `main`, in source order,
before the accept loop starts. -/
def startupItems : List CfgItem :=
  [.tlsCert, .tlsKey, .modelArch, .modelPath, .addr]

/-- Configuration items acquired and validated inside `handler`, in source
order, once per connection. -/
def handlerItems : List CfgItem := [.batchSize, .threads, .templateFile]

/-- Whether `main` reaches the accept loop: every item it reads must be
valid (each acquisition carries `?`). -/
def startupOk (ok : CfgItem → Bool) : Bool := startupItems.all ok

/-- Whether `handler`'s per-connection setup succeeds: every item it reads
must be valid (each acquisition carries `?`). -/
def handlerSetupOk (ok : CfgItem → Bool) : Bool := handlerItems.all ok

/-- The full connection handler (main.rs lines 117-170): read and parse the
batch-size and thread-count variables (arguments of `start_session`), start
the single engine session for this connection, read the template file, then
run the prompt loop.  A failed acquisition returns `Err` from the handler at
that point. -/
def handler {σ : Type} (ok : CfgItem → Bool) (E : Engine σ)
    (render : String → String) (fuel : Nat) (s₀ : σ) (incoming : List InMsg) :
    List Ev × ConnResult :=
  if ok .batchSize = false then ([], .err)
  else if ok .threads = false then ([], .err)
  else if ok .templateFile = false then ([.startSession], .err)
  else
    let r := connLoop E render fuel s₀ incoming
    (.startSession :: r.1, r.2)

/-- A candidate connection at the accept loop: `tcpErr` models
`socket.accept()` returning `Err`, `tlsFail a` a TCP-accepted peer `a` whose
TLS handshake (`acceptor.accept`) fails, `tlsOk a` a peer whose handshake
succeeds. -/
inductive Cand
| tcpErr
| tlsFail (addr : String)
| tlsOk (addr : String)
deriving DecidableEq, Repr

/-- Events of the accept loop: the `info!("{addr} connected with TLS!")`
log line and the `tokio::spawn(handler ...)`. -/
inductive AccEv
| logConnected (addr : String)
| spawn (addr : String)
deriving DecidableEq, Repr

/-- The accept loop (main.rs lines 93-99): `while let Ok((stream, addr))`
exits on a TCP accept error; a TLS handshake failure hits the
`let Ok(stream) = ... else { continue }` and the loop moves on without any
log; a success is logged and its handler spawned. -/
def acceptLoop : List Cand → List AccEv
| [] => []
| .tcpErr :: _ => []
| .tlsFail _ :: rest => acceptLoop rest
| .tlsOk a :: rest => .logConnected a :: .spawn a :: acceptLoop rest

/-- The wire messages (as byte sequences) appearing in a trace, in order. -/
def sends (tr : List Ev) : List (List Nat) :=
  tr.filterMap fun e =>
    match e with
    | .send m => some m
    | _ => none

/-- Scanning check that every engine call (feed or inference) is separated
from the next engine call by at least one cooperative yield.  The flag
records whether an engine call has occurred with no yield since. -/
def yieldSeparatedAux : Bool → List Ev → Bool
| _, [] => true
| pending, e :: rest =>
  match e with
  | .feedCall _ => !pending && yieldSeparatedAux true rest
  | .inferCall => !pending && yieldSeparatedAux true rest
  | .yieldEv => yieldSeparatedAux false rest
  | _ => yieldSeparatedAux pending rest

/-- A trace is yield-separated when no two engine calls occur without a
yield event strictly between them. -/
def yieldSeparated (tr : List Ev) : Bool := yieldSeparatedAux false tr

/-- Scanning check that every send event is immediately followed by a flush
event. -/
def sendsFlushed : List Ev → Bool
| [] => true
| .send _ :: rest =>
  match rest with
  | .flush :: r => sendsFlushed r
  | _ => false
| _ :: rest => sendsFlushed rest

/-! Section: Unfolding lemmas for the phase functions -/

theorem feedPhase_nil {σ : Type} (E : Engine σ) (s : σ) :
    feedPhase E s [] = (some s, []) := rfl

theorem feedPhase_cons {σ : Type} (E : Engine σ) (s : σ) (w : String)
    (ws : List String) :
    feedPhase E s (w :: ws) =
      if E.feedErr s w then (none, [Ev.feedCall w])
      else ((feedPhase E (E.feedNext s w) ws).1,
            Ev.feedCall w :: Ev.yieldEv :: (feedPhase E (E.feedNext s w) ws).2) := by
  by_cases h : E.feedErr s w <;>
    simp [feedPhase, feed_prompt, handlerCallback, h]

theorem genPhase_zero {σ : Type} (E : Engine σ) (s : σ) :
    genPhase E 0 s = ([], .fuelOut s) := rfl

theorem genPhase_succ {σ : Type} (E : Engine σ) (fuel : Nat) (s : σ) :
    genPhase E (fuel + 1) s =
      if E.inferErr s then ([.inferCall], .broke s)
      else if E.inferTok s = [] then ([.inferCall], .panicked)
      else if utf8Valid (E.inferTok s) then
        (Ev.inferCall :: Ev.send (E.inferTok s) :: Ev.flush :: Ev.yieldEv ::
           (genPhase E fuel (E.inferNext s)).1,
         (genPhase E fuel (E.inferNext s)).2)
      else ([.inferCall], .errored) := by
  by_cases h₁ : E.inferErr s
  · simp [genPhase, h₁]
  · by_cases h₂ : E.inferTok s = []
    · simp [genPhase, h₁, h₂]
    · by_cases h₃ : utf8Valid (E.inferTok s) <;> simp [genPhase, h₁, h₂, h₃]

theorem turn_eq_feed_err {σ : Type} {E : Engine σ} {s : σ} {ws : List String}
    {ftr : List Ev} (fuel : Nat) (hfp : feedPhase E s ws = (none, ftr)) :
    turn E fuel s ws = (ftr, .errored) := by
  simp [turn, hfp]

theorem turn_eq_broke {σ : Type} {E : Engine σ} {fuel : Nat} {s s₁ s₂ : σ}
    {ws : List String} {ftr gtr : List Ev}
    (hfp : feedPhase E s ws = (some s₁, ftr))
    (hgp : genPhase E fuel s₁ = (gtr, .broke s₂)) :
    turn E fuel s ws
      = (ftr ++ gtr ++ [Ev.send [], Ev.flush, Ev.yieldEv], .completed s₂) := by
  simp [turn, hfp, hgp]

theorem turn_eq_panicked {σ : Type} {E : Engine σ} {fuel : Nat} {s s₁ : σ}
    {ws : List String} {ftr gtr : List Ev}
    (hfp : feedPhase E s ws = (some s₁, ftr))
    (hgp : genPhase E fuel s₁ = (gtr, .panicked)) :
    turn E fuel s ws = (ftr ++ gtr, .panicked) := by
  simp [turn, hfp, hgp]

theorem turn_eq_errored {σ : Type} {E : Engine σ} {fuel : Nat} {s s₁ : σ}
    {ws : List String} {ftr gtr : List Ev}
    (hfp : feedPhase E s ws = (some s₁, ftr))
    (hgp : genPhase E fuel s₁ = (gtr, .errored)) :
    turn E fuel s ws = (ftr ++ gtr, .errored) := by
  simp [turn, hfp, hgp]

theorem turn_eq_fuelOut {σ : Type} {E : Engine σ} {fuel : Nat} {s s₁ s₂ : σ}
    {ws : List String} {ftr gtr : List Ev}
    (hfp : feedPhase E s ws = (some s₁, ftr))
    (hgp : genPhase E fuel s₁ = (gtr, .fuelOut s₂)) :
    turn E fuel s ws = (ftr ++ gtr, .fuelOut s₂) := by
  simp [turn, hfp, hgp]

theorem connLoop_nil {σ : Type} (E : Engine σ) (render : String → String)
    (fuel : Nat) (s : σ) : connLoop E render fuel s [] = ([], .clean) := rfl

theorem connLoop_other {σ : Type} (E : Engine σ) (render : String → String)
    (fuel : Nat) (s : σ) (rest : List InMsg) :
    connLoop E render fuel s (.other :: rest) = ([], .clean) := rfl

theorem connLoop_completed {σ : Type} {E : Engine σ}
    {render : String → String} {fuel : Nat} {s s' : σ} {p : String}
    {ttr : List Ev} (rest : List InMsg)
    (htp : turn E fuel s (splitWhitespace (render p)) = (ttr, .completed s')) :
    connLoop E render fuel s (.text p :: rest)
      = (ttr ++ (connLoop E render fuel s' rest).1,
         (connLoop E render fuel s' rest).2) := by
  simp [connLoop, htp]

theorem connLoop_errored {σ : Type} {E : Engine σ}
    {render : String → String} {fuel : Nat} {s : σ} {p : String}
    {ttr : List Ev} (rest : List InMsg)
    (htp : turn E fuel s (splitWhitespace (render p)) = (ttr, .errored)) :
    connLoop E render fuel s (.text p :: rest) = (ttr, .err) := by
  simp [connLoop, htp]

theorem connLoop_panicked {σ : Type} {E : Engine σ}
    {render : String → String} {fuel : Nat} {s : σ} {p : String}
    {ttr : List Ev} (rest : List InMsg)
    (htp : turn E fuel s (splitWhitespace (render p)) = (ttr, .panicked)) :
    connLoop E render fuel s (.text p :: rest) = (ttr, .panic) := by
  simp [connLoop, htp]

theorem connLoop_fuelOut {σ : Type} {E : Engine σ}
    {render : String → String} {fuel : Nat} {s s₂ : σ} {p : String}
    {ttr : List Ev} (rest : List InMsg)
    (htp : turn E fuel s (splitWhitespace (render p)) = (ttr, .fuelOut s₂)) :
    connLoop E render fuel s (.text p :: rest) = (ttr, .fuelOut) := by
  simp [connLoop, htp]

/-! Section: Trace lemmas -/

theorem sends_append (a b : List Ev) : sends (a ++ b) = sends a ++ sends b := by
  simp [sends, List.filterMap_append]

/-- The feeding phase never sends anything on the wire. -/
theorem feedPhase_sends {σ : Type} (E : Engine σ) :
    ∀ (ws : List String) (s : σ), sends (feedPhase E s ws).2 = []
| [], s => by simp [feedPhase_nil, sends]
| w :: ws, s => by
  rw [feedPhase_cons]
  by_cases h : E.feedErr s w
  · simp [h, sends]
  · simpa [h, sends] using feedPhase_sends E ws (E.feedNext s w)

/-- Every message sent by the generation loop is a non-empty byte sequence:
the `assert!(!tok.is_empty())` precedes every send. -/
theorem genPhase_sends_nonempty {σ : Type} (E : Engine σ) :
    ∀ (fuel : Nat) (s : σ), ∀ m ∈ sends (genPhase E fuel s).1, m ≠ []
| 0, s => by simp [genPhase_zero, sends]
| fuel + 1, s => by
  rw [genPhase_succ]
  by_cases h₁ : E.inferErr s
  · simp [h₁, sends]
  · by_cases h₂ : E.inferTok s = []
    · simp [h₁, h₂, sends]
    · by_cases h₃ : utf8Valid (E.inferTok s)
      · have ih := genPhase_sends_nonempty E fuel (E.inferNext s)
        rw [if_neg h₁, if_neg h₂, if_pos h₃]
        dsimp only
        simp only [sends, List.filterMap_cons] at ih ⊢
        intro m hm
        simp only [List.mem_cons] at hm
        rcases hm with rfl | hm
        · exact h₂
        · exact ih m hm
      · simp [h₁, h₂, h₃, sends]

/-- The feeding phase performs exactly the feed calls for its word list, in
order, whenever it succeeds (the constant-`Continue` callback makes an early
feedback halt impossible, and the caller's `for` loop visits every word). -/
theorem feedPhase_calls {σ : Type} (E : Engine σ) :
    ∀ (ws : List String) (s : σ), (feedPhase E s ws).1.isSome = true →
      ((feedPhase E s ws).2.filterMap fun e =>
        match e with
        | .feedCall w => some w
        | _ => none) = ws
| [], s => by simp [feedPhase_nil]
| w :: ws, s => by
  rw [feedPhase_cons]
  by_cases h : E.feedErr s w
  · simp [h]
  · intro hs
    simp only [h, if_false] at hs ⊢
    simpa using feedPhase_calls E ws (E.feedNext s w) hs

/-- No phase of the handler's prompt loop emits a session-start event. -/
theorem startSession_notin_feedPhase {σ : Type} (E : Engine σ) :
    ∀ (ws : List String) (s : σ), Ev.startSession ∉ (feedPhase E s ws).2
| [], s => by simp [feedPhase_nil]
| w :: ws, s => by
  rw [feedPhase_cons]
  by_cases h : E.feedErr s w
  · simp [h]
  · simpa [h] using startSession_notin_feedPhase E ws (E.feedNext s w)

theorem startSession_notin_genPhase {σ : Type} (E : Engine σ) :
    ∀ (fuel : Nat) (s : σ), Ev.startSession ∉ (genPhase E fuel s).1
| 0, s => by simp [genPhase_zero]
| fuel + 1, s => by
  rw [genPhase_succ]
  by_cases h₁ : E.inferErr s
  · simp [h₁]
  · by_cases h₂ : E.inferTok s = []
    · simp [h₁, h₂]
    · by_cases h₃ : utf8Valid (E.inferTok s)
      · simpa [h₁, h₂, h₃] using
          startSession_notin_genPhase E fuel (E.inferNext s)
      · simp [h₁, h₂, h₃]

theorem startSession_notin_turn {σ : Type} (E : Engine σ) (fuel : Nat)
    (s : σ) (ws : List String) : Ev.startSession ∉ (turn E fuel s ws).1 := by
  have hf := startSession_notin_feedPhase E ws s
  unfold turn
  rcases hfp : feedPhase E s ws with ⟨o, ftr⟩
  rw [hfp] at hf
  cases o with
  | none => simpa using hf
  | some s₁ =>
    have hg := startSession_notin_genPhase E fuel s₁
    rcases hgp : genPhase E fuel s₁ with ⟨gtr, gr⟩
    rw [hgp] at hg
    cases gr <;> simp_all

theorem startSession_notin_connLoop {σ : Type} (E : Engine σ)
    (render : String → String) (fuel : Nat) :
    ∀ (msgs : List InMsg) (s : σ),
      Ev.startSession ∉ (connLoop E render fuel s msgs).1
| [], _ => by simp [connLoop]
| .other :: _, _ => by simp [connLoop]
| .text p :: rest, s => by
  have ht := startSession_notin_turn E fuel s (splitWhitespace (render p))
  unfold connLoop
  rcases htp : turn E fuel s (splitWhitespace (render p)) with ⟨ttr, tres⟩
  rw [htp] at ht
  cases tres with
  | completed s' =>
    have ih := startSession_notin_connLoop E render fuel rest s'
    simp_all
  | errored => simpa using ht
  | panicked => simpa using ht
  | fuelOut _ => simpa using ht

/-! Section: Flush discipline: every send is immediately followed by a flush -/

theorem sendsFlushed_feedPhase {σ : Type} (E : Engine σ) :
    ∀ (ws : List String) (s : σ) (tail : List Ev),
      sendsFlushed ((feedPhase E s ws).2 ++ tail) = sendsFlushed tail
| [], s, tail => by simp [feedPhase_nil]
| w :: ws, s, tail => by
  rw [feedPhase_cons]
  by_cases h : E.feedErr s w
  · simp [h, sendsFlushed]
  · rw [if_neg h]
    dsimp only
    simpa [sendsFlushed] using
      sendsFlushed_feedPhase E ws (E.feedNext s w) tail

theorem sendsFlushed_genPhase {σ : Type} (E : Engine σ) :
    ∀ (fuel : Nat) (s : σ) (tail : List Ev),
      sendsFlushed ((genPhase E fuel s).1 ++ tail) = sendsFlushed tail
| 0, s, tail => by simp [genPhase_zero]
| fuel + 1, s, tail => by
  rw [genPhase_succ]
  by_cases h₁ : E.inferErr s
  · simp [h₁, sendsFlushed]
  · by_cases h₂ : E.inferTok s = []
    · simp [h₁, h₂, sendsFlushed]
    · by_cases h₃ : utf8Valid (E.inferTok s)
      · rw [if_neg h₁, if_neg h₂, if_pos h₃]
        dsimp only
        simpa [sendsFlushed] using
          sendsFlushed_genPhase E fuel (E.inferNext s) tail
      · simp [h₁, h₂, h₃, sendsFlushed]

theorem sendsFlushed_turn {σ : Type} (E : Engine σ) (fuel : Nat) (s : σ)
    (ws : List String) (tail : List Ev) :
    sendsFlushed ((turn E fuel s ws).1 ++ tail) = sendsFlushed tail := by
  have hf : ∀ t, sendsFlushed ((feedPhase E s ws).2 ++ t) = sendsFlushed t :=
    fun t => sendsFlushed_feedPhase E ws s t
  rcases hfp : feedPhase E s ws with ⟨o, ftr⟩
  rw [hfp] at hf
  dsimp only at hf
  cases o with
  | none => rw [turn_eq_feed_err fuel hfp]; exact hf tail
  | some s₁ =>
    have hg : ∀ t, sendsFlushed ((genPhase E fuel s₁).1 ++ t) = sendsFlushed t :=
      fun t => sendsFlushed_genPhase E fuel s₁ t
    rcases hgp : genPhase E fuel s₁ with ⟨gtr, gr⟩
    rw [hgp] at hg
    dsimp only at hg
    cases gr with
    | broke s₂ =>
      rw [turn_eq_broke hfp hgp]
      dsimp only
      rw [List.append_assoc, List.append_assoc, hf, hg]
      simp [sendsFlushed]
    | panicked =>
      rw [turn_eq_panicked hfp hgp]
      dsimp only
      rw [List.append_assoc, hf, hg]
    | errored =>
      rw [turn_eq_errored hfp hgp]
      dsimp only
      rw [List.append_assoc, hf, hg]
    | fuelOut s₂ =>
      rw [turn_eq_fuelOut hfp hgp]
      dsimp only
      rw [List.append_assoc, hf, hg]

theorem sendsFlushed_connLoop {σ : Type} (E : Engine σ)
    (render : String → String) (fuel : Nat) :
    ∀ (msgs : List InMsg) (s : σ),
      sendsFlushed (connLoop E render fuel s msgs).1 = true
| [], _ => rfl
| .other :: _, _ => rfl
| .text p :: rest, s => by
  have ht : ∀ t,
      sendsFlushed ((turn E fuel s (splitWhitespace (render p))).1 ++ t)
        = sendsFlushed t :=
    fun t => sendsFlushed_turn E fuel s (splitWhitespace (render p)) t
  unfold connLoop
  rcases htp : turn E fuel s (splitWhitespace (render p)) with ⟨ttr, tres⟩
  rw [htp] at ht
  dsimp only at ht
  cases tres with
  | completed s' =>
    dsimp only
    rw [ht]
    exact sendsFlushed_connLoop E render fuel rest s'
  | errored => simpa using ht []
  | panicked => simpa using ht []
  | fuelOut _ => simpa using ht []

/-! Section: Yield discipline: a yield between any two consecutive engine calls -/

theorem yieldSep_feedPhase_ok {σ : Type} (E : Engine σ) :
    ∀ (ws : List String) (s : σ), (feedPhase E s ws).1.isSome = true →
      ∀ tail, yieldSeparatedAux false ((feedPhase E s ws).2 ++ tail)
        = yieldSeparatedAux false tail
| [], s => by simp [feedPhase_nil]
| w :: ws, s => by
  rw [feedPhase_cons]
  by_cases h : E.feedErr s w
  · simp [h]
  · rw [if_neg h]
    dsimp only
    intro hs tail
    simpa [yieldSeparatedAux] using
      yieldSep_feedPhase_ok E ws (E.feedNext s w) hs tail

theorem yieldSep_feedPhase_err {σ : Type} (E : Engine σ) :
    ∀ (ws : List String) (s : σ), (feedPhase E s ws).1 = none →
      ∀ tail, yieldSeparatedAux true tail = true →
        yieldSeparatedAux false ((feedPhase E s ws).2 ++ tail) = true
| [], s => by simp [feedPhase_nil]
| w :: ws, s => by
  rw [feedPhase_cons]
  by_cases h : E.feedErr s w
  · intro _ tail htail
    simpa [h, yieldSeparatedAux] using htail
  · rw [if_neg h]
    dsimp only
    intro hn tail htail
    simpa [yieldSeparatedAux] using
      yieldSep_feedPhase_err E ws (E.feedNext s w) hn tail htail

theorem yieldSep_genPhase_broke {σ : Type} (E : Engine σ) :
    ∀ (fuel : Nat) (s : σ) (s₂ : σ), (genPhase E fuel s).2 = .broke s₂ →
      ∀ (m : List Nat) (tail : List Ev),
        yieldSeparatedAux false
            ((genPhase E fuel s).1 ++ (Ev.send m :: Ev.flush :: Ev.yieldEv :: tail))
          = yieldSeparatedAux false tail
| 0, s, s₂ => by simp [genPhase_zero]
| fuel + 1, s, s₂ => by
  rw [genPhase_succ]
  by_cases h₁ : E.inferErr s
  · simp [h₁, yieldSeparatedAux]
  · by_cases h₂ : E.inferTok s = []
    · simp [h₁, h₂]
    · by_cases h₃ : utf8Valid (E.inferTok s)
      · rw [if_neg h₁, if_neg h₂, if_pos h₃]
        dsimp only
        intro hb m tail
        simpa [yieldSeparatedAux] using
          yieldSep_genPhase_broke E fuel (E.inferNext s) s₂ hb m tail
      · simp [h₁, h₂, h₃]

theorem yieldSep_genPhase_any {σ : Type} (E : Engine σ) :
    ∀ (fuel : Nat) (s : σ),
      yieldSeparatedAux false (genPhase E fuel s).1 = true
| 0, s => by simp [genPhase_zero, yieldSeparatedAux]
| fuel + 1, s => by
  rw [genPhase_succ]
  by_cases h₁ : E.inferErr s
  · simp [h₁, yieldSeparatedAux]
  · by_cases h₂ : E.inferTok s = []
    · simp [h₁, h₂, yieldSeparatedAux]
    · by_cases h₃ : utf8Valid (E.inferTok s)
      · rw [if_neg h₁, if_neg h₂, if_pos h₃]
        dsimp only
        simpa [yieldSeparatedAux] using
          yieldSep_genPhase_any E fuel (E.inferNext s)
      · simp [h₁, h₂, h₃, yieldSeparatedAux]

theorem yieldSep_turn_completed {σ : Type} (E : Engine σ) (fuel : Nat)
    (s : σ) (ws : List String) (s' : σ)
    (h : (turn E fuel s ws).2 = .completed s') (tail : List Ev) :
    yieldSeparatedAux false ((turn E fuel s ws).1 ++ tail)
      = yieldSeparatedAux false tail := by
  rcases hfp : feedPhase E s ws with ⟨o, ftr⟩
  cases o with
  | none => rw [turn_eq_feed_err fuel hfp] at h; simp at h
  | some s₁ =>
    have hfo : (feedPhase E s ws).1.isSome = true := by rw [hfp]; rfl
    have hfy := yieldSep_feedPhase_ok E ws s hfo
    rw [hfp] at hfy
    dsimp only at hfy
    rcases hgp : genPhase E fuel s₁ with ⟨gtr, gr⟩
    cases gr with
    | broke s₂ =>
      have hgb : (genPhase E fuel s₁).2 = .broke s₂ := by rw [hgp]
      have hgy := yieldSep_genPhase_broke E fuel s₁ s₂ hgb [] tail
      rw [hgp] at hgy
      dsimp only at hgy
      rw [turn_eq_broke hfp hgp]
      dsimp only
      rw [List.append_assoc, List.append_assoc, hfy]
      simpa using hgy
    | panicked => rw [turn_eq_panicked hfp hgp] at h; simp at h
    | errored => rw [turn_eq_errored hfp hgp] at h; simp at h
    | fuelOut s₂ => rw [turn_eq_fuelOut hfp hgp] at h; simp at h

theorem yieldSep_turn_any {σ : Type} (E : Engine σ) (fuel : Nat) (s : σ)
    (ws : List String) :
    yieldSeparatedAux false (turn E fuel s ws).1 = true := by
  rcases hfp : feedPhase E s ws with ⟨o, ftr⟩
  cases o with
  | none =>
    have hn : (feedPhase E s ws).1 = none := by rw [hfp]
    have hfe := yieldSep_feedPhase_err E ws s hn [] rfl
    rw [hfp] at hfe
    dsimp only at hfe
    rw [turn_eq_feed_err fuel hfp]
    dsimp only
    simpa using hfe
  | some s₁ =>
    have hfo : (feedPhase E s ws).1.isSome = true := by rw [hfp]; rfl
    have hfy := yieldSep_feedPhase_ok E ws s hfo
    rw [hfp] at hfy
    dsimp only at hfy
    rcases hgp : genPhase E fuel s₁ with ⟨gtr, gr⟩
    have hga := yieldSep_genPhase_any E fuel s₁
    rw [hgp] at hga
    dsimp only at hga
    cases gr with
    | broke s₂ =>
      have hgb : (genPhase E fuel s₁).2 = .broke s₂ := by rw [hgp]
      have hgy := yieldSep_genPhase_broke E fuel s₁ s₂ hgb [] []
      rw [hgp] at hgy
      dsimp only at hgy
      rw [turn_eq_broke hfp hgp]
      dsimp only
      rw [List.append_assoc, hfy]
      simpa using hgy
    | panicked =>
      rw [turn_eq_panicked hfp hgp]
      dsimp only
      rw [hfy]
      exact hga
    | errored =>
      rw [turn_eq_errored hfp hgp]
      dsimp only
      rw [hfy]
      exact hga
    | fuelOut s₂ =>
      rw [turn_eq_fuelOut hfp hgp]
      dsimp only
      rw [hfy]
      exact hga

theorem yieldSep_connLoop {σ : Type} (E : Engine σ)
    (render : String → String) (fuel : Nat) :
    ∀ (msgs : List InMsg) (s : σ),
      yieldSeparatedAux false (connLoop E render fuel s msgs).1 = true
| [], _ => rfl
| .other :: _, _ => rfl
| .text p :: rest, s => by
  unfold connLoop
  rcases htp : turn E fuel s (splitWhitespace (render p)) with ⟨ttr, tres⟩
  have hta := yieldSep_turn_any E fuel s (splitWhitespace (render p))
  rw [htp] at hta
  dsimp only at hta
  cases tres with
  | completed s' =>
    have hc := yieldSep_turn_completed E fuel s (splitWhitespace (render p)) s'
      (by rw [htp]) ((connLoop E render fuel s' rest).1)
    rw [htp] at hc
    dsimp only at hc ⊢
    rw [hc]
    exact yieldSep_connLoop E render fuel rest s'
  | errored => exact hta
  | panicked => exact hta
  | fuelOut _ => exact hta

/-! Section: Concrete engine oracles used to instantiate the claims -/

/-- Engine whose `feed_prompt` errors on every call. -/
def feedFailEngine : Engine Nat :=
  { feedErr := fun _ _ => true
    feedStop := fun _ _ => false
    feedNext := fun s _ => s
    inferErr := fun _ => true
    inferTok := fun _ => []
    inferNext := fun s => s }

/-- Engine whose feeding always succeeds and whose `infer_next_token`
errors on every call. -/
def inferErrEngine : Engine Nat :=
  { feedErr := fun _ _ => false
    feedStop := fun _ _ => false
    feedNext := fun s _ => s + 1
    inferErr := fun _ => true
    inferTok := fun _ => []
    inferNext := fun s => s }

/-- Engine that produces one ASCII token (byte 72, `H`) and then errors. -/
def oneTokEngine : Engine Nat :=
  { feedErr := fun _ _ => false
    feedStop := fun _ _ => false
    feedNext := fun s _ => s
    inferErr := fun s => decide (1 ≤ s)
    inferTok := fun _ => [72]
    inferNext := fun s => s + 1 }

/-- Engine that returns an empty token from `infer_next_token`. -/
def emptyTokEngine : Engine Nat :=
  { feedErr := fun _ _ => false
    feedStop := fun _ _ => false
    feedNext := fun s _ => s + 1
    inferErr := fun _ => false
    inferTok := fun _ => []
    inferNext := fun s => s }

/-- Engine that hands the feed callback a stop-worthy response on every
feed call, and errors on inference. -/
def stopSignalEngine : Engine Nat :=
  { feedErr := fun _ _ => false
    feedStop := fun _ _ => true
    feedNext := fun s _ => s + 1
    inferErr := fun _ => true
    inferTok := fun _ => []
    inferNext := fun s => s }

/-- Engine that returns the invalid UTF-8 token `[0xFF]`. -/
def badUtf8Engine : Engine Nat :=
  { feedErr := fun _ _ => false
    feedStop := fun _ _ => false
    feedNext := fun s _ => s + 1
    inferErr := fun _ => false
    inferTok := fun _ => [0xFF]
    inferNext := fun s => s }

/-! Section: Claim C1 -/

/-- C1, counterexample: an engine error on the very first `feed_prompt`
call does not lead to a sentinel send with the connection preserved — the
`?` on `feed_prompt` (main.rs line 143) propagates the error out of
`handler`, so the turn ends `.errored`, no message at all is sent for the
prompt, and the connection loop aborts with `.err` without reading the
remaining queued prompt. -/
theorem feed_error_drops_connection_without_sentinel :
    turn feedFailEngine 5 0 ["hello"] = ([Ev.feedCall "hello"], .errored)
    ∧ sends (turn feedFailEngine 5 0 ["hello"]).1 = []
    ∧ connLoop feedFailEngine (fun p => p) 5 0
        [InMsg.text "hello", InMsg.text "again"]
        = ([Ev.feedCall "hello"], ConnResult.err) := by
  refine ⟨by decide, by decide, by decide⟩

/-- C1, amended: for every prompt whose turn completes (feeding succeeded
and the generation loop halted on an engine inference error), the wire
output of the turn is zero or more non-empty token messages followed by
exactly one empty end-of-turn message.  An engine error during feeding
instead propagates out of the handler and no sentinel is sent. -/
theorem turn_completed_sends_exactly_one_sentinel {σ : Type} (E : Engine σ)
    (fuel : Nat) (s s' : σ) (ws : List String)
    (h : (turn E fuel s ws).2 = TurnResult.completed s') :
    ∃ ts, sends (turn E fuel s ws).1 = ts ++ [[]] ∧ ∀ t ∈ ts, t ≠ [] := by
  rcases hfp : feedPhase E s ws with ⟨o, ftr⟩
  cases o with
  | none => rw [turn_eq_feed_err fuel hfp] at h; simp at h
  | some s₁ =>
    rcases hgp : genPhase E fuel s₁ with ⟨gtr, gr⟩
    cases gr with
    | broke s₂ =>
      rw [turn_eq_broke hfp hgp]
      dsimp only
      refine ⟨sends gtr, ?_, ?_⟩
      · have hfs := feedPhase_sends E ws s
        rw [hfp] at hfs
        dsimp only at hfs
        rw [sends_append, sends_append, hfs]
        simp [sends]
      · intro t ht
        have hne := genPhase_sends_nonempty E fuel s₁
        rw [hgp] at hne
        dsimp only at hne
        exact hne t ht
    | panicked => rw [turn_eq_panicked hfp hgp] at h; simp at h
    | errored => rw [turn_eq_errored hfp hgp] at h; simp at h
    | fuelOut s₂ => rw [turn_eq_fuelOut hfp hgp] at h; simp at h

/-- C1, witness: a concrete completed turn (one token, then an inference
error) whose sends are one non-empty token message and one sentinel. -/
theorem turn_completed_sends_exactly_one_sentinel_witness :
    ∃ ts, sends (turn oneTokEngine 2 0 []).1 = ts ++ [[]] ∧ ∀ t ∈ ts, t ≠ [] :=
  turn_completed_sends_exactly_one_sentinel oneTokEngine 2 0 1 [] (by decide)

/-! Section: Claim C2 -/

/-- C2: when `infer_next_token` errors on the very first inference call of
a turn whose feeding succeeded, the wire output of the turn is exactly one
empty message with no prior token messages, and the connection loop keeps
running: the next queued prompts are processed from the session state the
turn left behind. -/
theorem first_infer_error_sends_bare_sentinel {σ : Type} (E : Engine σ)
    (fuel : Nat) (s s₁ : σ) (ws : List String) (ftr : List Ev)
    (hfp : feedPhase E s ws = (some s₁, ftr))
    (he : E.inferErr s₁ = true) :
    turn E (fuel + 1) s ws
      = (ftr ++ [Ev.inferCall, Ev.send [], Ev.flush, Ev.yieldEv],
         TurnResult.completed s₁)
    ∧ sends (turn E (fuel + 1) s ws).1 = [[]]
    ∧ ∀ (render : String → String) (p : String) (rest : List InMsg),
        splitWhitespace (render p) = ws →
        connLoop E render (fuel + 1) s (.text p :: rest)
          = ((turn E (fuel + 1) s ws).1
               ++ (connLoop E render (fuel + 1) s₁ rest).1,
             (connLoop E render (fuel + 1) s₁ rest).2) := by
  have hgp : genPhase E (fuel + 1) s₁ = ([Ev.inferCall], .broke s₁) := by
    rw [genPhase_succ, if_pos he]
  have ht := turn_eq_broke hfp hgp
  refine ⟨?_, ?_, ?_⟩
  · rw [ht]; simp
  · rw [ht]
    dsimp only
    have hfs := feedPhase_sends E ws s
    rw [hfp] at hfs
    dsimp only at hfs
    rw [sends_append, sends_append, hfs]
    simp [sends]
  · intro render p rest hws
    have ht' : turn E (fuel + 1) s (splitWhitespace (render p))
        = (ftr ++ [Ev.inferCall] ++ [Ev.send [], Ev.flush, Ev.yieldEv],
           .completed s₁) := by
      rw [hws]; exact ht
    rw [connLoop_completed rest ht', ht]

/-- C2, witness: a concrete first-call inference error yields exactly the
bare sentinel and the loop goes on to the next prompt. -/
theorem first_infer_error_sends_bare_sentinel_witness :
    turn inferErrEngine 1 0 []
      = ([Ev.inferCall, Ev.send [], Ev.flush, Ev.yieldEv],
         TurnResult.completed 0)
    ∧ sends (turn inferErrEngine 1 0 []).1 = [[]]
    ∧ connLoop inferErrEngine (fun _ => "") 1 0 [InMsg.text "", InMsg.text ""]
        = ((turn inferErrEngine 1 0 []).1
             ++ (connLoop inferErrEngine (fun _ => "") 1 0 [InMsg.text ""]).1,
           (connLoop inferErrEngine (fun _ => "") 1 0 [InMsg.text ""]).2) := by
  obtain ⟨h₁, h₂, h₃⟩ :=
    first_infer_error_sends_bare_sentinel inferErrEngine 0 0 0 [] [] rfl rfl
  exact ⟨by simpa using h₁, h₂, h₃ (fun _ => "") "" [InMsg.text ""] (by decide)⟩

/-! Section: Claim C3 -/

/-- C3: no message sent during the generation loop is empty — the
`assert!(!tok.is_empty())` guards every forward — and an engine-produced
empty token aborts the turn as a panic, with nothing forwarded for it,
rather than being sent to the client. -/
theorem generating_never_sends_empty {σ : Type} (E : Engine σ) (fuel : Nat)
    (s : σ) :
    (sends (genPhase E fuel s).1).contains [] = false
    ∧ (E.inferErr s = false → E.inferTok s = [] →
        genPhase E (fuel + 1) s = ([Ev.inferCall], .panicked)) := by
  constructor
  · have hne := genPhase_sends_nonempty E fuel s
    have : ¬ ([] ∈ sends (genPhase E fuel s).1) := fun hmem => hne [] hmem rfl
    simpa using this
  · intro h₁ h₂
    rw [genPhase_succ, if_neg (by simp [h₁]), if_pos h₂]

/-- C3, witness: a concrete empty-token engine panics on the first
generation step without forwarding anything, and a concrete normal engine
sends no empty message while generating. -/
theorem generating_never_sends_empty_witness :
    (sends (genPhase oneTokEngine 2 0).1).contains [] = false
    ∧ genPhase emptyTokEngine 1 0 = ([Ev.inferCall], .panicked) :=
  ⟨(generating_never_sends_empty oneTokEngine 2 0).1,
   (generating_never_sends_empty emptyTokEngine 0 0).2 rfl rfl⟩

/-! Section: Claim C4 -/

/-- C4: when the handler's per-connection setup succeeds, exactly one
engine session is started, at connection setup before any prompt is
processed — the rest of the trace contains no further session start — and
every turn threads the one session state: the turn for a prompt starts
from the state the previous completed turn left, so context accumulates
across consecutive prompts of one connection. -/
theorem one_session_per_connection {σ : Type} (ok : CfgItem → Bool)
    (E : Engine σ) (render : String → String) (fuel : Nat) (s : σ)
    (msgs : List InMsg) (hok : handlerSetupOk ok = true) :
    handler ok E render fuel s msgs
      = (Ev.startSession :: (connLoop E render fuel s msgs).1,
         (connLoop E render fuel s msgs).2)
    ∧ Ev.startSession ∉ (connLoop E render fuel s msgs).1
    ∧ ∀ (p : String) (rest : List InMsg) (s' : σ) (ttr : List Ev),
        turn E fuel s (splitWhitespace (render p)) = (ttr, .completed s') →
        connLoop E render fuel s (.text p :: rest)
          = (ttr ++ (connLoop E render fuel s' rest).1,
             (connLoop E render fuel s' rest).2) := by
  have h₃ : ok .batchSize = true ∧ ok .threads = true
      ∧ ok .templateFile = true := by
    simpa [handlerSetupOk, handlerItems] using hok
  refine ⟨?_, startSession_notin_connLoop E render fuel msgs s, ?_⟩
  · simp [handler, h₃.1, h₃.2.1, h₃.2.2]
  · intro p rest s' ttr htp
    exact connLoop_completed rest htp

/-- C4, witness: with a fully valid configuration the handler emits the
session start exactly once, ahead of the whole connection trace. -/
theorem one_session_per_connection_witness :
    handler (fun _ => true) oneTokEngine (fun p => p) 2 0 [InMsg.text "hi"]
      = (Ev.startSession
           :: (connLoop oneTokEngine (fun p => p) 2 0 [InMsg.text "hi"]).1,
         (connLoop oneTokEngine (fun p => p) 2 0 [InMsg.text "hi"]).2)
    ∧ Ev.startSession
        ∉ (connLoop oneTokEngine (fun p => p) 2 0 [InMsg.text "hi"]).1 := by
  obtain ⟨h₁, h₂, _⟩ := one_session_per_connection (fun _ => true) oneTokEngine
    (fun p => p) 2 0 [InMsg.text "hi"] rfl
  exact ⟨h₁, h₂⟩

/-! Section: Claim C5 -/

/-- C5: in every handler trace, each send is immediately followed by a
flush of the channel, and between any two engine calls (feed or inference,
successful or not) there is a cooperative yield back to the scheduler. -/
theorem forward_flush_and_yield_discipline {σ : Type} (ok : CfgItem → Bool)
    (E : Engine σ) (render : String → String) (fuel : Nat) (s : σ)
    (msgs : List InMsg) :
    sendsFlushed (handler ok E render fuel s msgs).1 = true
    ∧ yieldSeparated (handler ok E render fuel s msgs).1 = true := by
  unfold handler
  by_cases h₁ : ok .batchSize = false
  · simp [h₁, sendsFlushed, yieldSeparated, yieldSeparatedAux]
  · by_cases h₂ : ok .threads = false
    · simp [h₁, h₂, sendsFlushed, yieldSeparated, yieldSeparatedAux]
    · by_cases h₃ : ok .templateFile = false
      · simp [h₁, h₂, h₃, sendsFlushed, yieldSeparated, yieldSeparatedAux]
      · rw [if_neg h₁, if_neg h₂, if_neg h₃]
        dsimp only
        constructor
        · simpa [sendsFlushed] using sendsFlushed_connLoop E render fuel msgs s
        · simpa [yieldSeparated, yieldSeparatedAux] using
            yieldSep_connLoop E render fuel msgs s

/-! Section: Claim C6 -/

/-- C6, counterexample: a failed TLS handshake is discarded without any
log event — the trace of the accept loop holds no record of the failed
peer, only the log and spawn of the following successful one. -/
theorem tls_failure_not_logged_counterexample :
    acceptLoop [Cand.tlsFail "peer1", Cand.tlsOk "peer2"]
      = [AccEv.logConnected "peer2", AccEv.spawn "peer2"]
    ∧ AccEv.logConnected "peer1"
        ∉ acceptLoop [Cand.tlsFail "peer1", Cand.tlsOk "peer2"] := by
  exact ⟨rfl, by decide⟩

/-- C6, amended: on a TLS handshake failure for one candidate connection
the accept loop silently discards it — no event at all is emitted for the
failure — and continues listening, handling the remaining candidates
exactly as it would have without the failed one. -/
theorem tls_failure_discarded_loop_continues (a : String) (rest : List Cand) :
    acceptLoop (Cand.tlsFail a :: rest) = acceptLoop rest := rfl

/-! Section: Claim C7 -/

/-- C7, counterexample: even when the engine signals a stop-worthy
feedback condition on the first feed unit, the remaining whitespace units
are still submitted — the constant-`Continue` callback never halts
feeding. -/
theorem stop_feedback_ignored_counterexample :
    stopSignalEngine.feedStop 0 "alpha" = true
    ∧ handlerCallback (stopSignalEngine.feedStop 0 "alpha")
        = InferenceFeedback.Continue
    ∧ (feedPhase stopSignalEngine 0 ["alpha", "beta"]).2
        = [Ev.feedCall "alpha", Ev.yieldEv, Ev.feedCall "beta", Ev.yieldEv] := by
  exact ⟨rfl, rfl, by decide⟩

/-- C7, amended: the feedback closure passed to `feed_prompt` always
returns `Continue`, so feeding never halts early on a stop signal: when no
feed call errors, every whitespace-delimited unit of the prompt is
submitted to the engine, in order. -/
theorem feeding_submits_every_unit {σ : Type} (E : Engine σ) (s : σ)
    (ws : List String) (hs : (feedPhase E s ws).1.isSome = true) :
    ((feedPhase E s ws).2.filterMap fun e =>
        match e with
        | .feedCall w => some w
        | _ => none) = ws
    ∧ ∀ b, handlerCallback b = InferenceFeedback.Continue :=
  ⟨feedPhase_calls E ws s hs, fun _ => rfl⟩

/-- C7, witness: the stop-signalling engine still gets both units fed. -/
theorem feeding_submits_every_unit_witness :
    ((feedPhase stopSignalEngine 0 ["a", "b"]).2.filterMap fun e =>
        match e with
        | .feedCall w => some w
        | _ => none) = ["a", "b"] :=
  (feeding_submits_every_unit stopSignalEngine 0 ["a", "b"] (by decide)).1

/-! Section: Claim C8 -/

/-- Configuration in which every item is valid except the template file
path. -/
def templateMissingCfg : CfgItem → Bool :=
  fun i => decide (i ≠ CfgItem.templateFile)

/-- Configuration in which every item is valid except the inference batch
size. -/
def batchMissingCfg : CfgItem → Bool :=
  fun i => decide (i ≠ CfgItem.batchSize)

/-- C8, counterexample: an invalid template file path or batch-size knob
is not startup-fatal — `main` reaches its accept loop (startup succeeds)
and the error surfaces only inside `handler`, once a connection is being
handled. -/
theorem template_and_batch_errors_not_startup_fatal :
    startupOk templateMissingCfg = true
    ∧ handler templateMissingCfg oneTokEngine (fun p => p) 1 0
        [InMsg.text "hi"] = ([Ev.startSession], ConnResult.err)
    ∧ startupOk batchMissingCfg = true
    ∧ handler batchMissingCfg oneTokEngine (fun p => p) 1 0
        [InMsg.text "hi"] = ([], ConnResult.err) := by
  exact ⟨by decide, by decide, by decide, by decide⟩

/-- C8, amended: only the TLS material, model configuration and bind
address are startup-checked — if they are all valid, the process begins
serving regardless of the handler-read knobs — while an invalid template
path or batch/thread knob makes each connection's handler fail with an
error (before any message is sent on that connection) when the connection
is handled. -/
theorem config_split_startup_vs_handler {σ : Type} (ok : CfgItem → Bool)
    (E : Engine σ) (render : String → String) (fuel : Nat) (s : σ)
    (msgs : List InMsg) :
    ((∀ i ∈ startupItems, ok i = true) → startupOk ok = true)
    ∧ (handlerSetupOk ok = false →
        (handler ok E render fuel s msgs).2 = ConnResult.err
        ∧ sends (handler ok E render fuel s msgs).1 = []) := by
  constructor
  · intro h
    simpa [startupOk, List.all_eq_true] using h
  · intro h
    by_cases h₁ : ok .batchSize = false
    · simp [handler, h₁, sends]
    · by_cases h₂ : ok .threads = false
      · simp [handler, h₁, h₂, sends]
      · by_cases h₃ : ok .templateFile = false
        · simp [handler, h₁, h₂, h₃, sends]
        · exfalso
          simp only [Bool.not_eq_false] at h₁ h₂ h₃
          simp [handlerSetupOk, handlerItems, h₁, h₂, h₃] at h

/-- C8, witness: the template-only-invalid configuration passes startup
and fails the handler with no message sent. -/
theorem config_split_startup_vs_handler_witness :
    startupOk templateMissingCfg = true
    ∧ (handler templateMissingCfg oneTokEngine (fun p => p) 1 0
         [InMsg.text "hi"]).2 = ConnResult.err
    ∧ sends (handler templateMissingCfg oneTokEngine (fun p => p) 1 0
         [InMsg.text "hi"]).1 = [] := by
  obtain ⟨h₁, h₂⟩ := config_split_startup_vs_handler templateMissingCfg
    oneTokEngine (fun p => p) 1 0 [InMsg.text "hi"]
  have hs := h₁ (by decide)
  have he := h₂ (by decide)
  exact ⟨hs, he.1, he.2⟩

/-! Section: Claim C10 -/

/-- C10: when `infer_next_token` returns non-empty token bytes that are
not valid UTF-8, `String::from_utf8(tok)?` makes the handler return an
error: the turn ends `.errored` with no message sent — in particular no
end-of-turn sentinel — and the connection loop aborts, tearing the
connection down instead of treating it as a normal end of turn. -/
theorem invalid_utf8_token_drops_connection {σ : Type} (E : Engine σ)
    (fuel : Nat) (s s₁ : σ) (ws : List String) (ftr : List Ev)
    (hfp : feedPhase E s ws = (some s₁, ftr))
    (he : E.inferErr s₁ = false)
    (htok : E.inferTok s₁ ≠ [])
    (hbad : utf8Valid (E.inferTok s₁) = false) :
    turn E (fuel + 1) s ws = (ftr ++ [Ev.inferCall], TurnResult.errored)
    ∧ sends (turn E (fuel + 1) s ws).1 = []
    ∧ ∀ (render : String → String) (p : String) (rest : List InMsg),
        splitWhitespace (render p) = ws →
        connLoop E render (fuel + 1) s (.text p :: rest)
          = (ftr ++ [Ev.inferCall], ConnResult.err) := by
  have hgp : genPhase E (fuel + 1) s₁ = ([Ev.inferCall], .errored) := by
    rw [genPhase_succ, if_neg (by simp [he]), if_neg htok,
      if_neg (by simp [hbad])]
  have ht := turn_eq_errored hfp hgp
  refine ⟨ht, ?_, ?_⟩
  · rw [ht]
    dsimp only
    have hfs := feedPhase_sends E ws s
    rw [hfp] at hfs
    dsimp only at hfs
    rw [sends_append, hfs]
    simp [sends]
  · intro render p rest hws
    have ht' : turn E (fuel + 1) s (splitWhitespace (render p))
        = (ftr ++ [Ev.inferCall], .errored) := by
      rw [hws]; exact ht
    exact connLoop_errored rest ht'

/-- C10, witness: the `[0xFF]` token tears the connection down with no
sentinel. -/
theorem invalid_utf8_token_drops_connection_witness :
    turn badUtf8Engine 1 0 [] = ([Ev.inferCall], TurnResult.errored)
    ∧ sends (turn badUtf8Engine 1 0 []).1 = []
    ∧ connLoop badUtf8Engine (fun _ => "") 1 0 [InMsg.text "", InMsg.text ""]
        = ([Ev.inferCall], ConnResult.err) := by
  obtain ⟨h₁, h₂, h₃⟩ := invalid_utf8_token_drops_connection badUtf8Engine 0
    0 0 [] [] rfl rfl (by decide) (by decide)
  refine ⟨by simpa using h₁, h₂, ?_⟩
  have := h₃ (fun _ => "") "" [InMsg.text ""] (by decide)
  simpa using this

end Ettllama
